import Mathlib

/-!
Shallow embedding of `qcodes/instrument_drivers/Keysight/keysightb1500/
KeysightB1500_module.py`: the two response parsers
(`parse_module_query_response`, `parse_spot_measurement_response`), the
output-relay operations (`enable_outputs`, `disable_outputs`) and the
output-state query (`is_enabled`) of `B1500Module`.

Strings are modelled as `List Char`; Python regular-expression matching is
modelled by deterministic functional matchers (the patterns used in the
source contain no ambiguity: every greedy repetition is bounded by a
character that the repeated class cannot match, so maximal-munch scanning is
equivalent to backtracking semantics).  Python `float` conversion of the
matched numeric token is modelled exactly over `ℚ` (decimal semantics of the
token).  Raising `ValueError` is modelled by `Except.error`.
-/

namespace KeysightB1500

/-- Model of Python's `\w` over ASCII: letters, digits and underscore. -/
def isWordChar (c : Char) : Bool := c.isAlphanum || c == '_'

/-- Value of a list of decimal digit characters, as Python `int` computes it
(most significant first; leading zeros allowed). -/
def digitsToNat (l : List Char) : Nat :=
  l.foldl (fun a c => 10 * a + (c.toNat - 48)) 0

/-! ## `parse_module_query_response`

Source pattern: `;?(?P<model>\w+),(?P<revision>\d+)`, used with
`re.findall`.  Since `,` is not a word character and the digit run is
final-and-greedy, a match starting at a given position is the optional `;`,
the maximal nonempty word-character run, a `,`, and the maximal nonempty
digit run. -/

/-- Try to match `;?(\w+),(\d+)` at the head of `s`.  On success returns
`(model, revision, rest)` where `rest` is the input after the match. -/
def matchModuleAt (s : List Char) : Option (List Char × List Char × List Char) :=
  let s1 := match s with
    | ';' :: t => t
    | _ => s
  let w := s1.takeWhile isWordChar
  let r1 := s1.dropWhile isWordChar
  if w = [] then none
  else
    match r1 with
    | ',' :: r2 =>
      let d := r2.takeWhile Char.isDigit
      let r3 := r2.dropWhile Char.isDigit
      if d = [] then none else some (w, d, r3)
    | _ => none

/-- Fuelled scanner for `re.findall`: at each position try the pattern; on
success record the two groups and continue after the match, otherwise
advance one character.  `fuel ≥ s.length` suffices since every step strictly
shortens the input. -/
def findAllGo : Nat → List Char → List (List Char × List Char)
  | 0, _ => []
  | _, [] => []
  | fuel + 1, c :: rest =>
    match matchModuleAt (c :: rest) with
    | some (w, d, r3) => (w, d) :: findAllGo fuel r3
    | none => findAllGo fuel rest

/-- Model of `re.findall(r";?(?P<model>\w+),(?P<revision>\d+)", response)`. -/
def findAllModules (s : List Char) : List (List Char × List Char) :=
  findAllGo s.length s

/-- Model of `parse_module_query_response`: enumerate the matches from 1,
drop entries whose model token is `"0"`, and map each remaining slot number
to its model token (the resulting association list is the dict). -/
def parse_module_query_response (response : List Char) : List (Nat × List Char) :=
  (List.enumFrom 1 (findAllModules response)).filterMap
    (fun p => if p.2.1 = ['0'] then none else some (p.1, p.2.1))

/-! ## `parse_spot_measurement_response`

Source pattern (`_pattern`, used with `re.match`, i.e. anchored at the start
of the input only):

  `((?P<status>\w)(?P<chnr>\w)(?P<dtype>\w))?`
  `(?P<value>[+-]\d{1,3}\.\d{3,6}E[+-]\d{2})`

Determinism: inside the value token every greedy digit repetition is
followed by a character (`.`, `E`, or nothing) that `\d` cannot match, so
each digit field must consume its whole maximal run, whose length must lie
in the stated bounds; the optional three-character group participates
exactly when three word characters are followed by a matching value token,
and since a word character is never `+`/`-`, at most one of the two
alternatives can succeed. -/

/-- The parts of a matched value token `[+-]\d{1,3}\.\d{3,6}E[+-]\d{2}`:
mantissa sign, integer digits, fractional digits, exponent sign and the two
exponent digits. -/
structure ValTok where
  neg : Bool
  ip : List Char
  fp : List Char
  eneg : Bool
  e1 : Char
  e2 : Char
deriving DecidableEq

/-- Well-formedness of the token parts, exactly the constraints of the
regular expression. -/
def ValTok.wf (t : ValTok) : Prop :=
  t.ip.all Char.isDigit ∧ 1 ≤ t.ip.length ∧ t.ip.length ≤ 3 ∧
  t.fp.all Char.isDigit ∧ 3 ≤ t.fp.length ∧ t.fp.length ≤ 6 ∧
  t.e1.isDigit ∧ t.e2.isDigit

instance (t : ValTok) : Decidable t.wf := by
  unfold ValTok.wf; infer_instance

/-- The text of the token. -/
def ValTok.render (t : ValTok) : List Char :=
  (if t.neg then '-' else '+') :: t.ip ++ '.' :: t.fp ++
    'E' :: (if t.eneg then '-' else '+') :: [t.e1, t.e2]

/-- Exact decimal value of the token: what Python's `float` parses from the
token text (modelled over `ℚ`). -/
def ValTok.toRat (t : ValTok) : ℚ :=
  let e : Nat := 10 * (t.e1.toNat - 48) + (t.e2.toNat - 48)
  let mag : ℚ :=
    (digitsToNat t.ip * 10 ^ t.fp.length + digitsToNat t.fp : ℚ) / 10 ^ t.fp.length
  let m : ℚ := if t.eneg then mag / 10 ^ e else mag * 10 ^ e
  if t.neg then -m else m

/-- Match the value token at the head of `s` (trailing input is allowed and
ignored, as `re.match` does not anchor the end). -/
def matchValue (s : List Char) : Option ValTok :=
  match s with
  | [] => none
  | c :: rest =>
    if c = '+' ∨ c = '-' then
      let ip := rest.takeWhile Char.isDigit
      let r1 := rest.dropWhile Char.isDigit
      if 1 ≤ ip.length ∧ ip.length ≤ 3 then
        match r1 with
        | '.' :: r2 =>
          let fp := r2.takeWhile Char.isDigit
          let r3 := r2.dropWhile Char.isDigit
          if 3 ≤ fp.length ∧ fp.length ≤ 6 then
            match r3 with
            | 'E' :: s2 :: d1 :: d2 :: _ =>
              if (s2 = '+' ∨ s2 = '-') ∧ d1.isDigit ∧ d2.isDigit then
                some ⟨c = '-', ip, fp, s2 = '-', d1, d2⟩
              else none
            | _ => none
          else none
        | _ => none
      else none
    else none

/-- Result of a successful match of `_pattern`: the three optional
one-character named groups and the value token. -/
structure SpotMatch where
  status : Option Char
  chnr : Option Char
  dtype : Option Char
  tok : ValTok
deriving DecidableEq

/-- Match of `_pattern` with the optional group not participating. -/
def matchSpotNoGroup (s : List Char) : Option SpotMatch :=
  (matchValue s).map (fun t => ⟨none, none, none, t⟩)

/-- Model of `re.match(_pattern, s)`: the greedy optional group is tried
first (three word characters followed by a value token); otherwise the value
token alone is matched at the start. -/
def matchSpot (s : List Char) : Option SpotMatch :=
  match s with
  | a :: b :: c :: rest =>
    if isWordChar a ∧ isWordChar b ∧ isWordChar c then
      match matchValue rest with
      | some t => some ⟨some a, some b, some c, t⟩
      | none => matchSpotNoGroup s
    else matchSpotNoGroup s
  | _ => matchSpotNoGroup s

/-- Python values occurring in the returned dictionary: strings, numbers
(the `float` conversion, modelled exactly over `ℚ`) and `None`. -/
inductive PyVal where
  | str : String → PyVal
  | num : ℚ → PyVal
  | pynone : PyVal
deriving DecidableEq

instance {ε α : Type} [DecidableEq ε] [DecidableEq α] : DecidableEq (Except ε α)
  | .error a, .error b =>
    if h : a = b then isTrue (by rw [h])
    else isFalse (by intro hh; injection hh; contradiction)
  | .error _, .ok _ => isFalse (by intro h; cases h)
  | .ok _, .error _ => isFalse (by intro h; cases h)
  | .ok a, .ok b =>
    if h : a = b then isTrue (by rw [h])
    else isFalse (by intro hh; injection hh; contradiction)

/-- A non-participating group is `None` in `groupdict()`; a participating
one-character group is a one-character string. -/
def groupVal : Option Char → PyVal
  | none => PyVal.pynone
  | some c => PyVal.str (String.mk [c])

/-- Model of `parse_spot_measurement_response`: on a failed match raise
`ValueError` carrying the offending response; on success return
`match.groupdict()` (keys in group order: status, chnr, dtype, value) with
the value entry converted by `float`. -/
def parse_spot_measurement_response (response : List Char) :
    Except (List Char) (List (String × PyVal)) :=
  match matchSpot response with
  | none => Except.error response
  | some m =>
    Except.ok [("status", groupVal m.status), ("chnr", groupVal m.chnr),
               ("dtype", groupVal m.dtype), ("value", PyVal.num m.tok.toRat)]

/-! ## `is_enabled`, `enable_outputs`, `disable_outputs` -/

/-- Model of `re.sub(r"[^,\d]", "", response)`: keep only digits and
commas. -/
def keepDigitComma (s : List Char) : List Char :=
  s.filter (fun c => c.isDigit || c == ',')

/-- Model of Python `str.split(",")`: the empty string yields `[""]`, and
adjacent separators yield empty segments. -/
def splitComma : List Char → List (List Char)
  | [] => [[]]
  | c :: rest =>
    if c = ',' then [] :: splitComma rest
    else
      match splitComma rest with
      | [] => [[c]]
      | g :: gs => (c :: g) :: gs

/-- Model of Python `int(x)` on the comma-split segments: succeeds exactly
on nonempty all-digit strings (the only nonempty segments the filter can
produce), raising `ValueError` otherwise. -/
def pyIntOfDigits (s : List Char) : Option Nat :=
  if s ≠ [] ∧ s.all Char.isDigit then some (digitsToNat s) else none

/-- Convert every segment with `int`; `none` models the `ValueError` raised
as soon as one segment fails, since Python's `set.issubset` consumes the
whole generator when building the comparison set. -/
def intsOfSegments : List (List Char) → Option (List Nat)
  | [] => some []
  | s :: rest =>
    match pyIntOfDigits s with
    | none => none
    | some n => (intsOfSegments rest).map (fun l => n :: l)

/-- The integers reported closed by the response: filter to digits and
commas, split on commas, convert every segment with `int`. -/
def activatedChannelInts (response : List Char) : Option (List Nat) :=
  intsOfSegments (splitComma (keepDigitComma response))

/-- Model of `B1500Module.is_enabled`: query response in hand, strip every
character but digits and commas, split on commas, convert the segments to
integers and test whether the module's channel set is a subset. -/
def is_enabled (channels : List Nat) (response : List Char) : Except String Bool :=
  match activatedChannelInts response with
  | none => Except.error "invalid literal for int() with base 10"
  | some ints => Except.ok (channels.all (fun c => ints.contains c))

/-- The state a `B1500Module` owns: its channel sequence (fixed at
construction) and its slot number. -/
structure B1500Module where
  channels : List Nat
  slot_nr : Nat
deriving DecidableEq

/-- Modelled from the spec: the `MessageBuilder` collaborator is not part of
the source; commands are kept symbolic — `cn` is the close-relay (enable)
command over a channel list, `cl` the open-relay (disable) command. -/
inductive B1500Command where
  | cn : List Nat → B1500Command
  | cl : List Nat → B1500Command
deriving DecidableEq

/-- Model of `B1500Module.enable_outputs`: build the close-relay command
over the module's full channel sequence and write exactly it; the module
state is returned unchanged and there is no other result. -/
def enable_outputs (m : B1500Module) : B1500Module × List B1500Command :=
  (m, [B1500Command.cn m.channels])

/-- Model of `B1500Module.disable_outputs`: build the open-relay command
over the module's full channel sequence and write exactly it; the module
state is returned unchanged and there is no other result. -/
def disable_outputs (m : B1500Module) : B1500Module × List B1500Command :=
  (m, [B1500Command.cl m.channels])

/-! ## List helper lemmas -/

theorem takeWhile_dropWhile_append {p : Char → Bool} {a b : List Char}
    (ha : ∀ c ∈ a, p c = true) (hb : ∀ c, b.head? = some c → p c = false) :
    (a ++ b).takeWhile p = a ∧ (a ++ b).dropWhile p = b := by
  induction a with
  | nil =>
    cases b with
    | nil => exact ⟨rfl, rfl⟩
    | cons c r =>
      simp only [List.nil_append, List.takeWhile_cons, List.dropWhile_cons,
        hb c rfl]
      exact ⟨rfl, rfl⟩
  | cons x xs ih =>
    have hx : p x = true := ha x (by simp)
    have h2 := ih (fun c hc => ha c (by simp [hc]))
    simp only [List.cons_append, List.takeWhile_cons, List.dropWhile_cons, hx,
      if_true, h2.1, h2.2]
    exact ⟨trivial, trivial⟩

theorem mem_takeWhile_pred {p : Char → Bool} :
    ∀ (l : List Char), ∀ c ∈ l.takeWhile p, p c = true := by
  intro l
  induction l with
  | nil => intro c hc; simp [List.takeWhile] at hc
  | cons x xs ih =>
    intro c hc
    rw [List.takeWhile_cons] at hc
    by_cases hx : p x = true
    · simp only [hx, if_true, List.mem_cons] at hc
      rcases hc with rfl | hc
      · exact hx
      · exact ih c hc
    · simp only [Bool.not_eq_true] at hx
      simp [hx] at hc

theorem dropWhile_head_pred {p : Char → Bool} :
    ∀ (l : List Char) {c : Char} {r : List Char},
      l.dropWhile p = c :: r → p c = false := by
  intro l
  induction l with
  | nil => intro c r h; simp [List.dropWhile] at h
  | cons x xs ih =>
    intro c r h
    rw [List.dropWhile_cons] at h
    by_cases hx : p x = true
    · simp only [hx, if_true] at h
      exact ih h
    · simp only [Bool.not_eq_true] at hx
      simp only [hx, Bool.false_eq_true, if_false] at h
      cases h
      exact hx

/-! ## Character-class facts -/

theorem word_ne_plus {c : Char} (h : isWordChar c = true) : ¬ c = '+' := by
  intro hc; subst hc; exact absurd h (by decide)

theorem word_ne_minus {c : Char} (h : isWordChar c = true) : ¬ c = '-' := by
  intro hc; subst hc; exact absurd h (by decide)

theorem sign_not_word {c : Char} (h : c = '+' ∨ c = '-') : isWordChar c = false := by
  rcases h with rfl | rfl <;> decide

/-! ## `matchValue` soundness and completeness -/

theorem matchValue_sound {t : ValTok} (h : t.wf) (rest : List Char) :
    matchValue (t.render ++ rest) = some t := by
  obtain ⟨neg, ip, fp, eneg, e1, e2⟩ := t
  simp only [ValTok.wf, List.all_eq_true] at h
  obtain ⟨hip, hip1, hip3, hfp, hfp3, hfp6, he1, he2⟩ := h
  have hsign : (if neg then '-' else '+') = '+' ∨ (if neg then '-' else '+') = '-' := by
    cases neg <;> simp
  have hdot : Char.isDigit '.' = false := by decide
  have hE : Char.isDigit 'E' = false := by decide
  have hrender : ValTok.render ⟨neg, ip, fp, eneg, e1, e2⟩ ++ rest =
      (if neg then '-' else '+') ::
        (ip ++ ('.' :: (fp ++ ('E' :: (if eneg then '-' else '+') :: e1 :: e2 :: rest)))) := by
    simp [ValTok.render]
  have htd1 := takeWhile_dropWhile_append (p := Char.isDigit)
    (a := ip) (b := '.' :: (fp ++ ('E' :: (if eneg then '-' else '+') :: e1 :: e2 :: rest)))
    (fun c hc => hip c hc) (by intro c hc; simp at hc; subst hc; exact hdot)
  have htd2 := takeWhile_dropWhile_append (p := Char.isDigit)
    (a := fp) (b := 'E' :: (if eneg then '-' else '+') :: e1 :: e2 :: rest)
    (fun c hc => hfp c hc) (by intro c hc; simp at hc; subst hc; exact hE)
  rw [hrender]
  simp only [matchValue, hsign, if_true, htd1.1, htd1.2, htd2.1, htd2.2]
  have hlen1 : (1 ≤ ip.length ∧ ip.length ≤ 3) := ⟨hip1, hip3⟩
  have hlen2 : (3 ≤ fp.length ∧ fp.length ≤ 6) := ⟨hfp3, hfp6⟩
  have hesign : ((if eneg then '-' else '+') = '+' ∨ (if eneg then '-' else '+') = '-') := by
    cases eneg <;> simp
  simp only [hlen1, hlen2, if_true, hesign, he1, he2, and_true, true_and, and_self]
  cases neg <;> cases eneg <;> simp

theorem matchValue_complete {s : List Char} {t : ValTok}
    (h : matchValue s = some t) : t.wf ∧ ∃ rest, s = t.render ++ rest := by
  cases s with
  | nil => simp [matchValue] at h
  | cons c rest =>
  simp only [matchValue] at h
  split at h
  swap
  · cases h
  rename_i hc
  split at h
  swap
  · cases h
  rename_i hl1
  split at h
  swap
  · cases h
  rename_i r2 heq1
  split at h
  swap
  · cases h
  rename_i hl2
  split at h
  swap
  · cases h
  rename_i s2 d1 d2 tail heq2
  split at h
  swap
  · cases h
  rename_i hcond
  injection h with h2
  subst h2
  have hsgn1 : (if decide (c = '-') = true then '-' else '+') = c := by
    rcases hc with rfl | rfl <;> decide
  have hsgn2 : (if decide (s2 = '-') = true then '-' else '+') = s2 := by
    rcases hcond.1 with rfl | rfl <;> decide
  refine ⟨?_, tail, ?_⟩
  · unfold ValTok.wf
    refine ⟨?_, hl1.1, hl1.2, ?_, hl2.1, hl2.2, hcond.2.1, hcond.2.2⟩
    · rw [List.all_eq_true]
      exact fun x hx => mem_takeWhile_pred rest x hx
    · rw [List.all_eq_true]
      exact fun x hx => mem_takeWhile_pred r2 x hx
  · have hrest : rest = rest.takeWhile Char.isDigit ++ ('.' :: r2) := by
      conv_lhs => rw [← List.takeWhile_append_dropWhile (p := Char.isDigit) (l := rest)]
      rw [heq1]
    have hr2 : r2 = r2.takeWhile Char.isDigit ++ ('E' :: s2 :: d1 :: d2 :: tail) := by
      conv_lhs => rw [← List.takeWhile_append_dropWhile (p := Char.isDigit) (l := r2)]
      rw [heq2]
    simp only [ValTok.render, hsgn1, hsgn2]
    conv_lhs => rw [hrest, hr2]
    simp


/-! ## `matchSpot` lemmas -/

theorem matchValue_min_length {s : List Char} {t : ValTok}
    (h : matchValue s = some t) : 10 ≤ s.length := by
  obtain ⟨hwf, rest, hrest⟩ := matchValue_complete h
  obtain ⟨_, h1, _, _, h3, _, _, _⟩ := hwf
  subst hrest
  simp only [ValTok.render, List.length_append, List.length_cons, List.length_append]
  omega

theorem matchValue_append {s e : List Char} {t : ValTok}
    (h : matchValue s = some t) : matchValue (s ++ e) = some t := by
  obtain ⟨hwf, rest, hrest⟩ := matchValue_complete h
  subst hrest
  rw [List.append_assoc]
  exact matchValue_sound hwf (rest ++ e)

theorem matchValue_word_head {c : Char} (h : isWordChar c = true) (l : List Char) :
    matchValue (c :: l) = none := by
  simp only [matchValue]
  rw [if_neg]
  intro hc
  rcases hc with rfl | rfl <;> exact absurd h (by decide)

theorem matchSpot_cons3 (a b c : Char) (rest : List Char) :
    matchSpot (a :: b :: c :: rest) =
      if isWordChar a ∧ isWordChar b ∧ isWordChar c then
        match matchValue rest with
        | some t => some ⟨some a, some b, some c, t⟩
        | none => matchSpotNoGroup (a :: b :: c :: rest)
      else matchSpotNoGroup (a :: b :: c :: rest) := rfl

theorem matchSpotNoGroup_short {s : List Char} (h : s.length < 10) :
    matchSpotNoGroup s = none := by
  unfold matchSpotNoGroup
  cases hv : matchValue s with
  | none => rfl
  | some t => exact absurd (matchValue_min_length hv) (by omega)

theorem matchSpotNoGroup_some {s : List Char} {m : SpotMatch}
    (h : matchSpotNoGroup s = some m) :
    m.status = none ∧ m.chnr = none ∧ m.dtype = none ∧
      matchValue s = some m.tok := by
  unfold matchSpotNoGroup at h
  cases hv : matchValue s with
  | none => rw [hv] at h; cases h
  | some t =>
    rw [hv] at h
    injection h with h2
    subst h2
    exact ⟨rfl, rfl, rfl, rfl⟩

theorem matchSpot_of_matchValue {s : List Char} {t : ValTok}
    (h : matchValue s = some t) : ∃ m, matchSpot s = some m := by
  have hlen := matchValue_min_length h
  match s, h, hlen with
  | a :: b :: c :: rest, h, hlen =>
    rw [matchSpot_cons3]
    by_cases hw : isWordChar a ∧ isWordChar b ∧ isWordChar c
    · rw [if_pos hw]
      cases hv : matchValue rest with
      | some t2 => exact ⟨_, rfl⟩
      | none =>
        unfold matchSpotNoGroup
        rw [h]
        exact ⟨_, rfl⟩
    · rw [if_neg hw]
      unfold matchSpotNoGroup
      rw [h]
      exact ⟨_, rfl⟩

theorem matchSpot_append {s e : List Char} {m : SpotMatch}
    (h : matchSpot s = some m) : matchSpot (s ++ e) = some m := by
  match s, h with
  | [], h =>
    rw [show matchSpot [] = matchSpotNoGroup [] from rfl,
      matchSpotNoGroup_short (by simp)] at h
    cases h
  | [a], h =>
    rw [show matchSpot [a] = matchSpotNoGroup [a] from rfl,
      matchSpotNoGroup_short (by simp)] at h
    cases h
  | [a, b], h =>
    rw [show matchSpot [a, b] = matchSpotNoGroup [a, b] from rfl,
      matchSpotNoGroup_short (by simp)] at h
    cases h
  | a :: b :: c :: rest, h =>
    rw [matchSpot_cons3] at h
    rw [show (a :: b :: c :: rest) ++ e = a :: b :: c :: (rest ++ e) from rfl,
      matchSpot_cons3]
    by_cases hw : isWordChar a ∧ isWordChar b ∧ isWordChar c
    · rw [if_pos hw] at h ⊢
      cases hv : matchValue rest with
      | some t =>
        rw [hv] at h
        rw [matchValue_append hv]
        exact h
      | none =>
        rw [hv] at h
        obtain ⟨-, -, -, htok⟩ := matchSpotNoGroup_some h
        rw [matchValue_word_head hw.1] at htok
        cases htok
    · rw [if_neg hw] at h ⊢
      obtain ⟨h1, h2, h3, htok⟩ := matchSpotNoGroup_some h
      have hv2 : matchValue (a :: b :: c :: (rest ++ e)) = some m.tok :=
        matchValue_append (e := e) htok
      unfold matchSpotNoGroup
      rw [hv2]
      cases m with
      | mk st ch dt tk =>
        simp only at h1 h2 h3
        subst h1; subst h2; subst h3
        rfl

/-- The spot-measurement grammar matches at the start of `s`: either the
value token alone, or three word characters followed by a value token, in
both cases with arbitrary trailing input. -/
def spotGrammarAtStart (s : List Char) : Prop :=
  ∃ t rest, ValTok.wf t ∧
    (s = t.render ++ rest ∨
      ∃ a b c, isWordChar a = true ∧ isWordChar b = true ∧ isWordChar c = true ∧
        s = a :: b :: c :: (t.render ++ rest))

theorem matchSpot_isSome_iff {s : List Char} :
    (∃ m, matchSpot s = some m) ↔ spotGrammarAtStart s := by
  constructor
  · rintro ⟨m, hm⟩
    match s, hm with
    | [], hm =>
      rw [show matchSpot [] = matchSpotNoGroup [] from rfl,
        matchSpotNoGroup_short (by simp)] at hm
      cases hm
    | [a], hm =>
      rw [show matchSpot [a] = matchSpotNoGroup [a] from rfl,
        matchSpotNoGroup_short (by simp)] at hm
      cases hm
    | [a, b], hm =>
      rw [show matchSpot [a, b] = matchSpotNoGroup [a, b] from rfl,
        matchSpotNoGroup_short (by simp)] at hm
      cases hm
    | a :: b :: c :: rest, hm =>
      rw [matchSpot_cons3] at hm
      by_cases hw : isWordChar a ∧ isWordChar b ∧ isWordChar c
      · rw [if_pos hw] at hm
        cases hv : matchValue rest with
        | some t =>
          obtain ⟨hwf, r, hr⟩ := matchValue_complete hv
          exact ⟨t, r, hwf, Or.inr ⟨a, b, c, hw.1, hw.2.1, hw.2.2, by rw [hr]⟩⟩
        | none =>
          rw [hv] at hm
          obtain ⟨-, -, -, htok⟩ := matchSpotNoGroup_some hm
          rw [matchValue_word_head hw.1] at htok
          cases htok
      · rw [if_neg hw] at hm
        obtain ⟨-, -, -, htok⟩ := matchSpotNoGroup_some hm
        obtain ⟨hwf, r, hr⟩ := matchValue_complete htok
        exact ⟨m.tok, r, hwf, Or.inl hr⟩
  · rintro ⟨t, rest, hwf, hs | ⟨a, b, c, ha, hb, hc, hs⟩⟩
    · subst hs
      exact matchSpot_of_matchValue (matchValue_sound hwf rest)
    · subst hs
      rw [matchSpot_cons3, if_pos ⟨ha, hb, hc⟩, matchValue_sound hwf rest]
      exact ⟨_, rfl⟩

theorem matchSpot_groups {s : List Char} {m : SpotMatch}
    (h : matchSpot s = some m) :
    (m.status = none ∧ m.chnr = none ∧ m.dtype = none) ∨
      (∃ a b c, m.status = some a ∧ m.chnr = some b ∧ m.dtype = some c) := by
  match s, h with
  | [], h =>
    obtain ⟨h1, h2, h3, -⟩ := matchSpotNoGroup_some h
    exact Or.inl ⟨h1, h2, h3⟩
  | [a], h =>
    obtain ⟨h1, h2, h3, -⟩ := matchSpotNoGroup_some h
    exact Or.inl ⟨h1, h2, h3⟩
  | [a, b], h =>
    obtain ⟨h1, h2, h3, -⟩ := matchSpotNoGroup_some h
    exact Or.inl ⟨h1, h2, h3⟩
  | a :: b :: c :: rest, h =>
    rw [matchSpot_cons3] at h
    by_cases hw : isWordChar a ∧ isWordChar b ∧ isWordChar c
    · rw [if_pos hw] at h
      cases hv : matchValue rest with
      | some t =>
        rw [hv] at h
        injection h with h2
        subst h2
        exact Or.inr ⟨a, b, c, rfl, rfl, rfl⟩
      | none =>
        rw [hv] at h
        obtain ⟨h1, h2, h3, -⟩ := matchSpotNoGroup_some h
        exact Or.inl ⟨h1, h2, h3⟩
    · rw [if_neg hw] at h
      obtain ⟨h1, h2, h3, -⟩ := matchSpotNoGroup_some h
      exact Or.inl ⟨h1, h2, h3⟩

/-! ## `is_enabled` helper lemmas -/

theorem intsOfSegments_none_of_mem_nil {segs : List (List Char)}
    (h : [] ∈ segs) : intsOfSegments segs = none := by
  induction segs with
  | nil => cases h
  | cons s rest ih =>
    rcases List.mem_cons.mp h with hs | hs
    · rw [← hs]
      rfl
    · unfold intsOfSegments
      cases hp : pyIntOfDigits s with
      | none => rfl
      | some n => rw [ih hs]; rfl

theorem all_contains_eq_decide (ch ints : List Nat) :
    (ch.all fun c => ints.contains c) = decide (∀ c ∈ ch, c ∈ ints) := by
  by_cases h : ∀ c ∈ ch, c ∈ ints
  · rw [decide_eq_true h, List.all_eq_true]
    intro x hx
    simpa using h x hx
  · rw [decide_eq_false h, ← Bool.not_eq_true, List.all_eq_true]
    intro hall
    exact h (fun c hc => by simpa using hall c hc)

/-! ## Claim theorems -/

/-- C1: for every module channel list and every status-query response whose
comma/digit-filtered, comma-split segments all convert to integers,
`is_enabled` returns the boolean that is true if and only if every channel
of the module is among those integers (the set reported closed). -/
theorem C1_is_enabled_iff_subset (channels : List Nat) (response : List Char)
    (ints : List Nat) (h : activatedChannelInts response = some ints) :
    is_enabled channels response = Except.ok (decide (∀ c ∈ channels, c ∈ ints)) := by
  unfold is_enabled
  rw [h]
  simp only []
  rw [all_contains_eq_decide]

/-- Witness for C1 at the claim's particular input: a module with channels
`[1, 2]` and a response whose only digit content is `"1"` gets `false`. -/
theorem C1_is_enabled_iff_subset_witness :
    activatedChannelInts ['1'] = some [1] ∧
      is_enabled [1, 2] ['1'] = Except.ok false := by
  refine ⟨by decide, ?_⟩
  rw [C1_is_enabled_iff_subset [1, 2] ['1'] [1] (by decide)]
  decide

/-- C2: a pair `(k, model)` is in the module-query result exactly when the
scan's `k`-th match (1-based, in scan order) has that model token and the
token is not the literal `"0"`; and the example `"A,1;0,2;B,3"` parses to
`{1: "A", 3: "B"}`. -/
theorem C2_parse_module_query_slots :
    (∀ (response : List Char) (k : Nat) (model : List Char),
      (k, model) ∈ parse_module_query_response response ↔
        1 ≤ k ∧ model ≠ ['0'] ∧
          ∃ rev, (findAllModules response)[k - 1]? = some (model, rev)) ∧
    parse_module_query_response ("A,1;0,2;B,3".data) = [(1, ['A']), (3, ['B'])] := by
  constructor
  · intro response k model
    unfold parse_module_query_response
    rw [List.mem_filterMap]
    constructor
    · rintro ⟨⟨i, mo, rev⟩, hmem, hf⟩
      simp only at hf
      by_cases h0 : mo = ['0']
      · rw [if_pos h0] at hf; cases hf
      · rw [if_neg h0] at hf
        injection hf with hf2
        injection hf2 with hik hmodel
        subst hik; subst hmodel
        rw [List.mk_mem_enumFrom_iff_le_and_getElem?_sub] at hmem
        exact ⟨hmem.1, h0, rev, hmem.2⟩
    · rintro ⟨hk, hmo, rev, hget⟩
      refine ⟨(k, model, rev), ?_, ?_⟩
      · rw [List.mk_mem_enumFrom_iff_le_and_getElem?_sub]
        exact ⟨hk, hget⟩
      · simp only
        rw [if_neg hmo]
  · decide

/-- C6: the inventory parser returns normally on every input (it is a total
function in this embedding); when the pattern matches zero times the result
is the empty mapping. -/
theorem C6_module_query_empty (response : List Char)
    (h : findAllModules response = []) :
    parse_module_query_response response = [] := by
  unfold parse_module_query_response
  rw [h]
  rfl

/-- Witness for C6 at the empty input: no matches, empty mapping. -/
theorem C6_module_query_empty_witness :
    findAllModules [] = [] ∧ parse_module_query_response [] = [] :=
  ⟨rfl, C6_module_query_empty [] rfl⟩

/-- C7: `enable_outputs` sends exactly the close-relay command over the
module's full channel sequence, `disable_outputs` exactly the open-relay
command over the same full sequence; neither returns a value and both leave
the module's channel sequence and slot number unchanged. -/
theorem C7_relay_commands (m : B1500Module) :
    enable_outputs m = (m, [B1500Command.cn m.channels]) ∧
    disable_outputs m = (m, [B1500Command.cl m.channels]) ∧
    (enable_outputs m).1.channels = m.channels ∧
    (enable_outputs m).1.slot_nr = m.slot_nr ∧
    (disable_outputs m).1.channels = m.channels ∧
    (disable_outputs m).1.slot_nr = m.slot_nr :=
  ⟨rfl, rfl, rfl, rfl, rfl, rfl⟩

/-- C8: when the filtered response is empty or contains an empty segment
between commas, the integer conversion fails and `is_enabled` raises
`ValueError` instead of returning a boolean. -/
theorem C8_is_enabled_value_error (channels : List Nat) (response : List Char)
    (h : [] ∈ splitComma (keepDigitComma response)) :
    is_enabled channels response =
      Except.error "invalid literal for int() with base 10" := by
  unfold is_enabled activatedChannelInts
  rw [intsOfSegments_none_of_mem_nil h]

/-- Witness for C8 at the claim's example: a response with no digits or
commas at all. -/
theorem C8_is_enabled_value_error_witness :
    [] ∈ splitComma (keepDigitComma ("hello".data)) ∧
      is_enabled [1] ("hello".data) =
        Except.error "invalid literal for int() with base 10" :=
  ⟨by decide, C8_is_enabled_value_error [1] ("hello".data) (by decide)⟩

/-- C3: for every three word characters followed by a value token of the
grammar, the spot-measurement parser succeeds; the status, chnr and dtype
fields are the three characters position-wise and the value is the exact
decimal parse of the token. -/
theorem C3_spot_prefixed_token (c1 c2 c3 : Char) (t : ValTok)
    (h1 : isWordChar c1 = true) (h2 : isWordChar c2 = true)
    (h3 : isWordChar c3 = true) (ht : t.wf) :
    parse_spot_measurement_response (c1 :: c2 :: c3 :: t.render) =
      Except.ok [("status", PyVal.str (String.mk [c1])),
                 ("chnr", PyVal.str (String.mk [c2])),
                 ("dtype", PyVal.str (String.mk [c3])),
                 ("value", PyVal.num t.toRat)] := by
  have hv : matchValue t.render = some t := by
    have h := matchValue_sound ht []
    rwa [List.append_nil] at h
  have hm : matchSpot (c1 :: c2 :: c3 :: t.render) =
      some ⟨some c1, some c2, some c3, t⟩ := by
    rw [matchSpot_cons3, if_pos ⟨h1, h2, h3⟩, hv]
  unfold parse_spot_measurement_response
  rw [hm]
  rfl

/-- Witness for C3 at the claim's example `"WAV+001.2345E+06"`. -/
theorem C3_spot_prefixed_token_witness :
    isWordChar 'W' = true ∧ isWordChar 'A' = true ∧ isWordChar 'V' = true ∧
    ValTok.wf ⟨false, ['0','0','1'], ['2','3','4','5'], false, '0', '6'⟩ ∧
    parse_spot_measurement_response ("WAV+001.2345E+06".data) =
      Except.ok [("status", PyVal.str "W"), ("chnr", PyVal.str "A"),
                 ("dtype", PyVal.str "V"), ("value", PyVal.num 1234500)] := by
  refine ⟨by decide, by decide, by decide, by decide, ?_⟩
  have h := C3_spot_prefixed_token 'W' 'A' 'V'
      ⟨false, ['0','0','1'], ['2','3','4','5'], false, '0', '6'⟩
      (by decide) (by decide) (by decide) (by decide)
  have hdata : "WAV+001.2345E+06".data = 'W' :: 'A' :: 'V' ::
      ValTok.render ⟨false, ['0','0','1'], ['2','3','4','5'], false, '0', '6'⟩ := by
    decide
  have hval : ValTok.toRat ⟨false, ['0','0','1'], ['2','3','4','5'], false, '0', '6'⟩
      = 1234500 := by
    have hip : digitsToNat ['0','0','1'] = 1 := rfl
    have hfp : digitsToNat ['2','3','4','5'] = 2345 := rfl
    have he : 10 * ('0'.toNat - 48) + ('6'.toNat - 48) = 6 := rfl
    simp only [ValTok.toRat, hip, hfp, he]
    norm_num
  rw [hdata, h, hval]

/-- C4: in every successful spot-measurement record the three character
fields are all present (one-character strings) or all absent (`None`)
together, and the value entry is always present; the prefix-less example
`"-001.234E-02"` yields all three absent and value `-0.01234`. -/
theorem C4_spot_groups_all_or_none :
    (∀ (s : List Char) (d : List (String × PyVal)),
      parse_spot_measurement_response s = Except.ok d →
        ((d.lookup "status" = some PyVal.pynone ∧
          d.lookup "chnr" = some PyVal.pynone ∧
          d.lookup "dtype" = some PyVal.pynone) ∨
         (∃ a b c, d.lookup "status" = some (PyVal.str a) ∧
            d.lookup "chnr" = some (PyVal.str b) ∧
            d.lookup "dtype" = some (PyVal.str c))) ∧
        ∃ q, d.lookup "value" = some (PyVal.num q)) ∧
    parse_spot_measurement_response ("-001.234E-02".data) =
      Except.ok [("status", PyVal.pynone), ("chnr", PyVal.pynone),
                 ("dtype", PyVal.pynone),
                 ("value", PyVal.num (-(1234 : ℚ) / 100000))] := by
  constructor
  · intro s d h
    unfold parse_spot_measurement_response at h
    cases hm : matchSpot s with
    | none => rw [hm] at h; cases h
    | some m =>
      rw [hm] at h
      injection h with h2
      subst h2
      constructor
      · rcases matchSpot_groups hm with ⟨e1, e2, e3⟩ | ⟨a, b, c, e1, e2, e3⟩
        · exact Or.inl ⟨by rw [e1]; rfl, by rw [e2]; rfl, by rw [e3]; rfl⟩
        · exact Or.inr ⟨String.mk [a], String.mk [b], String.mk [c],
            by rw [e1]; rfl, by rw [e2]; rfl, by rw [e3]; rfl⟩
      · exact ⟨m.tok.toRat, rfl⟩
  · have hm : matchSpot ("-001.234E-02".data) =
        some ⟨none, none, none, ⟨true, ['0','0','1'], ['2','3','4'], true, '0', '2'⟩⟩ := by
      decide
    have hval : ValTok.toRat ⟨true, ['0','0','1'], ['2','3','4'], true, '0', '2'⟩
        = -(1234 : ℚ) / 100000 := by
      have hip : digitsToNat ['0','0','1'] = 1 := rfl
      have hfp : digitsToNat ['2','3','4'] = 234 := rfl
      have he : 10 * ('0'.toNat - 48) + ('2'.toNat - 48) = 2 := rfl
      simp only [ValTok.toRat, hip, hfp, he]
      norm_num
    unfold parse_spot_measurement_response
    rw [hm]
    simp only []
    rw [hval]
    rfl

/-- Witness for C4's universally quantified part at the prefix example
`"WAV+001.2345E+06"` (all three fields present together). -/
theorem C4_spot_groups_all_or_none_witness :
    parse_spot_measurement_response ("WAV+001.2345E+06".data) =
      Except.ok [("status", PyVal.str "W"), ("chnr", PyVal.str "A"),
        ("dtype", PyVal.str "V"),
        ("value", PyVal.num (ValTok.toRat
          ⟨false, ['0','0','1'], ['2','3','4','5'], false, '0', '6'⟩))] ∧
    (([("status", PyVal.str "W"), ("chnr", PyVal.str "A"),
        ("dtype", PyVal.str "V"),
        ("value", PyVal.num (ValTok.toRat
          ⟨false, ['0','0','1'], ['2','3','4','5'], false, '0', '6'⟩))].lookup "status"
          = some PyVal.pynone ∧
      ([("status", PyVal.str "W"), ("chnr", PyVal.str "A"),
        ("dtype", PyVal.str "V"),
        ("value", PyVal.num (ValTok.toRat
          ⟨false, ['0','0','1'], ['2','3','4','5'], false, '0', '6'⟩))].lookup "chnr")
          = some PyVal.pynone ∧
      ([("status", PyVal.str "W"), ("chnr", PyVal.str "A"),
        ("dtype", PyVal.str "V"),
        ("value", PyVal.num (ValTok.toRat
          ⟨false, ['0','0','1'], ['2','3','4','5'], false, '0', '6'⟩))].lookup "dtype")
          = some PyVal.pynone) ∨
     (∃ a b c,
      ([("status", PyVal.str "W"), ("chnr", PyVal.str "A"),
        ("dtype", PyVal.str "V"),
        ("value", PyVal.num (ValTok.toRat
          ⟨false, ['0','0','1'], ['2','3','4','5'], false, '0', '6'⟩))].lookup "status")
          = some (PyVal.str a) ∧
      ([("status", PyVal.str "W"), ("chnr", PyVal.str "A"),
        ("dtype", PyVal.str "V"),
        ("value", PyVal.num (ValTok.toRat
          ⟨false, ['0','0','1'], ['2','3','4','5'], false, '0', '6'⟩))].lookup "chnr")
          = some (PyVal.str b) ∧
      ([("status", PyVal.str "W"), ("chnr", PyVal.str "A"),
        ("dtype", PyVal.str "V"),
        ("value", PyVal.num (ValTok.toRat
          ⟨false, ['0','0','1'], ['2','3','4','5'], false, '0', '6'⟩))].lookup "dtype")
          = some (PyVal.str c))) := by
  have hm : matchSpot ("WAV+001.2345E+06".data) =
      some ⟨some 'W', some 'A', some 'V',
        ⟨false, ['0','0','1'], ['2','3','4','5'], false, '0', '6'⟩⟩ := by decide
  have hp : parse_spot_measurement_response ("WAV+001.2345E+06".data) =
      Except.ok [("status", PyVal.str "W"), ("chnr", PyVal.str "A"),
        ("dtype", PyVal.str "V"),
        ("value", PyVal.num (ValTok.toRat
          ⟨false, ['0','0','1'], ['2','3','4','5'], false, '0', '6'⟩))] := by
    unfold parse_spot_measurement_response
    rw [hm]
    rfl
  exact ⟨hp, (C4_spot_groups_all_or_none.1 _ _ hp).1⟩

/-- C5: the spot-measurement parser raises an error carrying the offending
input exactly when the grammar does not match at the start of the input;
when it matches, trailing characters are silently ignored (appending any
suffix preserves a successful parse); the input `"hello"` fails with an
error referencing the offending string. -/
theorem C5_spot_error_iff_no_match :
    (∀ s : List Char, parse_spot_measurement_response s = Except.error s ↔
      ¬ spotGrammarAtStart s) ∧
    (∀ (s e : List Char) (d : List (String × PyVal)),
      parse_spot_measurement_response s = Except.ok d →
        parse_spot_measurement_response (s ++ e) = Except.ok d) ∧
    parse_spot_measurement_response ("hello".data) =
      Except.error ("hello".data) := by
  refine ⟨?_, ?_, ?_⟩
  · intro s
    unfold parse_spot_measurement_response
    cases hm : matchSpot s with
    | none =>
      refine iff_of_true rfl ?_
      intro hg
      obtain ⟨m, hm2⟩ := matchSpot_isSome_iff.mpr hg
      rw [hm] at hm2
      cases hm2
    | some m =>
      refine iff_of_false (by intro h; cases h) ?_
      intro hng
      exact hng (matchSpot_isSome_iff.mp ⟨m, hm⟩)
  · intro s e d h
    unfold parse_spot_measurement_response at h ⊢
    cases hm : matchSpot s with
    | none => rw [hm] at h; cases h
    | some m =>
      rw [hm] at h
      rw [matchSpot_append hm]
      exact h
  · have hm : matchSpot ("hello".data) = none := by decide
    unfold parse_spot_measurement_response
    rw [hm]

/-- Witness for C5's trailing-characters part: a successful parse is
preserved under appending `"xyz"`. -/
theorem C5_spot_error_iff_no_match_witness :
    parse_spot_measurement_response ("-001.234E-02".data) =
      Except.ok [("status", PyVal.pynone), ("chnr", PyVal.pynone),
        ("dtype", PyVal.pynone),
        ("value", PyVal.num (ValTok.toRat
          ⟨true, ['0','0','1'], ['2','3','4'], true, '0', '2'⟩))] ∧
    parse_spot_measurement_response ("-001.234E-02".data ++ "xyz".data) =
      Except.ok [("status", PyVal.pynone), ("chnr", PyVal.pynone),
        ("dtype", PyVal.pynone),
        ("value", PyVal.num (ValTok.toRat
          ⟨true, ['0','0','1'], ['2','3','4'], true, '0', '2'⟩))] := by
  have hm : matchSpot ("-001.234E-02".data) =
      some ⟨none, none, none, ⟨true, ['0','0','1'], ['2','3','4'], true, '0', '2'⟩⟩ := by
    decide
  have hp : parse_spot_measurement_response ("-001.234E-02".data) =
      Except.ok [("status", PyVal.pynone), ("chnr", PyVal.pynone),
        ("dtype", PyVal.pynone),
        ("value", PyVal.num (ValTok.toRat
          ⟨true, ['0','0','1'], ['2','3','4'], true, '0', '2'⟩))] := by
    unfold parse_spot_measurement_response
    rw [hm]
    rfl
  exact ⟨hp, C5_spot_error_iff_no_match.2.1 _ ("xyz".data) _ hp⟩

/-- C9: every successful spot-measurement result is a dictionary whose keys
are exactly `status`, `chnr`, `dtype`, `value` in that order (the channel
key is `chnr`); `value` holds a number and each of the other three holds a
one-character string or `None`. -/
theorem C9_spot_record_shape (s : List Char) (d : List (String × PyVal))
    (h : parse_spot_measurement_response s = Except.ok d) :
    d.map Prod.fst = ["status", "chnr", "dtype", "value"] ∧
    (∃ q, d.lookup "value" = some (PyVal.num q)) ∧
    (∀ key ∈ (["status", "chnr", "dtype"] : List String),
      ∃ v, d.lookup key = some v ∧
        (v = PyVal.pynone ∨ ∃ a : String, v = PyVal.str a ∧ a.length = 1)) := by
  unfold parse_spot_measurement_response at h
  cases hm : matchSpot s with
  | none => rw [hm] at h; cases h
  | some m =>
    rw [hm] at h
    injection h with h2
    subst h2
    refine ⟨rfl, ⟨m.tok.toRat, rfl⟩, ?_⟩
    intro key hkey
    have hval : ∀ o : Option Char, groupVal o = PyVal.pynone ∨
        ∃ a : String, groupVal o = PyVal.str a ∧ a.length = 1 := by
      intro o
      cases o with
      | none => exact Or.inl rfl
      | some c => exact Or.inr ⟨String.mk [c], rfl, rfl⟩
    rcases List.mem_cons.mp hkey with rfl | hkey2
    · exact ⟨groupVal m.status, rfl, hval m.status⟩
    rcases List.mem_cons.mp hkey2 with rfl | hkey3
    · exact ⟨groupVal m.chnr, rfl, hval m.chnr⟩
    rcases List.mem_cons.mp hkey3 with rfl | hkey4
    · exact ⟨groupVal m.dtype, rfl, hval m.dtype⟩
    · cases hkey4

/-- Witness for C9 at the prefix-less example input. -/
theorem C9_spot_record_shape_witness :
    parse_spot_measurement_response ("-001.234E-02".data) =
      Except.ok [("status", PyVal.pynone), ("chnr", PyVal.pynone),
        ("dtype", PyVal.pynone),
        ("value", PyVal.num (ValTok.toRat
          ⟨true, ['0','0','1'], ['2','3','4'], true, '0', '2'⟩))] ∧
    [("status", PyVal.pynone), ("chnr", PyVal.pynone),
        ("dtype", PyVal.pynone),
        ("value", PyVal.num (ValTok.toRat
          ⟨true, ['0','0','1'], ['2','3','4'], true, '0', '2'⟩))].map Prod.fst =
      ["status", "chnr", "dtype", "value"] := by
  have hm : matchSpot ("-001.234E-02".data) =
      some ⟨none, none, none, ⟨true, ['0','0','1'], ['2','3','4'], true, '0', '2'⟩⟩ := by
    decide
  have hp : parse_spot_measurement_response ("-001.234E-02".data) =
      Except.ok [("status", PyVal.pynone), ("chnr", PyVal.pynone),
        ("dtype", PyVal.pynone),
        ("value", PyVal.num (ValTok.toRat
          ⟨true, ['0','0','1'], ['2','3','4'], true, '0', '2'⟩))] := by
    unfold parse_spot_measurement_response
    rw [hm]
    rfl
  exact ⟨hp, (C9_spot_record_shape _ _ hp).1⟩

/-- C10: a string of one or two word characters immediately followed by a
valid value token is rejected: the optional group needs all three
characters, and the token itself cannot begin with a word character. -/
theorem C10_spot_partial_word_run (w1 w2 : Char) (t : ValTok)
    (h1 : isWordChar w1 = true) (h2 : isWordChar w2 = true) (ht : t.wf) :
    parse_spot_measurement_response (w1 :: t.render) =
      Except.error (w1 :: t.render) ∧
    parse_spot_measurement_response (w1 :: w2 :: t.render) =
      Except.error (w1 :: w2 :: t.render) := by
  have hsgn : (if t.neg then '-' else '+') = '+' ∨
      (if t.neg then '-' else '+') = '-' := by cases t.neg <;> simp
  have hsw : isWordChar (if t.neg then '-' else '+') = false := sign_not_word hsgn
  obtain ⟨-, hip1, -, -, -, -, -, -⟩ := ht
  constructor
  · cases hip : t.ip with
    | nil => rw [hip] at hip1; simp at hip1
    | cons i0 ip2 =>
      have hr : t.render = (if t.neg then '-' else '+') :: i0 ::
          (ip2 ++ '.' :: t.fp ++
            'E' :: (if t.eneg then '-' else '+') :: [t.e1, t.e2]) := by
        simp [ValTok.render, hip]
      have hm : matchSpot (w1 :: t.render) = none := by
        rw [hr, matchSpot_cons3, if_neg]
        · unfold matchSpotNoGroup
          rw [matchValue_word_head h1]
          rfl
        · intro hw
          have hcontra := hw.2.1
          rw [hsw] at hcontra
          exact Bool.noConfusion hcontra
      unfold parse_spot_measurement_response
      rw [hm]
  · have hr2 : t.render = (if t.neg then '-' else '+') ::
        (t.ip ++ '.' :: t.fp ++
          'E' :: (if t.eneg then '-' else '+') :: [t.e1, t.e2]) := rfl
    have hm : matchSpot (w1 :: w2 :: t.render) = none := by
      rw [hr2, matchSpot_cons3, if_neg]
      · unfold matchSpotNoGroup
        rw [matchValue_word_head h1]
        rfl
      · intro hw
        have hcontra := hw.2.2
        rw [hsw] at hcontra
        exact Bool.noConfusion hcontra
    unfold parse_spot_measurement_response
    rw [hm]

/-- Witness for C10 at `"W+001.2345E+06"` and `"WA+001.2345E+06"`. -/
theorem C10_spot_partial_word_run_witness :
    isWordChar 'W' = true ∧ isWordChar 'A' = true ∧
    ValTok.wf ⟨false, ['0','0','1'], ['2','3','4','5'], false, '0', '6'⟩ ∧
    parse_spot_measurement_response ("W+001.2345E+06".data) =
      Except.error ("W+001.2345E+06".data) ∧
    parse_spot_measurement_response ("WA+001.2345E+06".data) =
      Except.error ("WA+001.2345E+06".data) := by
  refine ⟨by decide, by decide, by decide, ?_, ?_⟩
  · have h := (C10_spot_partial_word_run 'W' 'A'
      ⟨false, ['0','0','1'], ['2','3','4','5'], false, '0', '6'⟩
      (by decide) (by decide) (by decide)).1
    have hdata : "W+001.2345E+06".data = 'W' ::
        ValTok.render ⟨false, ['0','0','1'], ['2','3','4','5'], false, '0', '6'⟩ := by
      decide
    rw [hdata]
    exact h
  · have h := (C10_spot_partial_word_run 'W' 'A'
      ⟨false, ['0','0','1'], ['2','3','4','5'], false, '0', '6'⟩
      (by decide) (by decide) (by decide)).2
    have hdata : "WA+001.2345E+06".data = 'W' :: 'A' ::
        ValTok.render ⟨false, ['0','0','1'], ['2','3','4','5'], false, '0', '6'⟩ := by
      decide
    rw [hdata]
    exact h

end KeysightB1500
